import Mathlib

/-!
# yavl — checker composition and status-tracking engine: a shallow embedding

This file embeds the core of the yavl runtime schema-checking library:

* the `Status` diagnostic accumulator (path stack, failure paths, weighted
  quality score) in its scoring variant (`src/checks/and.js`, embedded
  index: `as.Status`, `push`, `pop`, `succeeded`) together with the legacy
  failure recorder (`src/index.js`: `as.Status.prototype.failed`);
* the checker hydrator `as.check` / `bindStatus`, which wraps a raw
  three-operation object (`matches` / `cast` / `validate`) with path
  bookkeeping, quality scoring, and exception-message annotation;
* the conjunction combinator (`src/checks/and.js`, lines 3-17);
* the static (primitive) checkers' predicate and coercion functions
  (`src/checks/and.js`, lines 166-186, and `src/index.js`, lines 144-166);
* the dispatcher `as(...)` (zero arguments: the universal pass-through
  checker; one argument: description resolution; several: disjunction).

JavaScript host behaviour (lodash predicates, `String`/`Number`/`Boolean`/
`Object` conversions, `JSON.parse`) is modelled explicitly; JS objects are
the inductive `Value` type, JS exceptions are `Except JsError`, and the
mutation of a `Status` is explicit state passing: a raw operation has type
`Value → Status → Except JsError α × Status` (the resulting status is
returned on both the normal and the throwing path, as mutation survives a
JS throw).
-/

namespace Yavl

/-- The JavaScript values the library operates on.  `nan` stands for the
number NaN (we model other numbers as integers; no claim depends on
fractional numeric inputs), `boxed` models the wrapper objects produced by
`Object(primitive)`. -/
inductive Value where
  | undef
  | vnull
  | bool (b : Bool)
  | num (n : Int)
  | nan
  | str (s : String)
  | arr (xs : List Value)
  | obj (fields : List (String × Value))
  | date (t : Int)
  | boxed (v : Value)

/-! ## Host-language predicates and conversions (lodash and JS builtins) -/

/-- lodash `_.isUndefined`. -/
def isUndefined : Value → Bool
  | .undef => true
  | _ => false

/-- lodash `_.isNull`. -/
def isNull : Value → Bool
  | .vnull => true
  | _ => false

/-- lodash `_.isString`. -/
def isString : Value → Bool
  | .str _ => true
  | _ => false

/-- lodash `_.isNumber` (true for NaN as well). -/
def isNumber : Value → Bool
  | .num _ => true
  | .nan => true
  | _ => false

/-- lodash `_.isBoolean`. -/
def isBoolean : Value → Bool
  | .bool _ => true
  | _ => false

/-- lodash `_.isArray`. -/
def isArray : Value → Bool
  | .arr _ => true
  | _ => false

/-- lodash `_.isObject`: true for objects, arrays, dates and wrapper
objects, false for null and primitives. -/
def isObject : Value → Bool
  | .arr _ => true
  | .obj _ => true
  | .date _ => true
  | .boxed _ => true
  | _ => false

/-- lodash `_.isDate`. -/
def isDate : Value → Bool
  | .date _ => true
  | _ => false

/-- JS truthiness: everything is truthy except `undefined`, `null`,
`false`, `0`, `NaN` and the empty string. -/
def jsTruthy : Value → Bool
  | .undef => false
  | .vnull => false
  | .bool b => b
  | .num n => n != 0
  | .nan => false
  | .str s => s ≠ ""
  | _ => true

mutual
/-- The host `String(...)` conversion (model: arrays join their elements
with commas as in JS; plain objects print "[object Object]"; the date
rendering is a placeholder as no theorem depends on it). -/
def jsString : Value → String
  | .undef => "undefined"
  | .vnull => "null"
  | .bool true => "true"
  | .bool false => "false"
  | .num n => toString n
  | .nan => "NaN"
  | .str s => s
  | .arr xs => String.intercalate "," (jsStringList xs)
  | .obj _ => "[object Object]"
  | .date t => "Date:" ++ toString t
  | .boxed v => jsString v

def jsStringList : List Value → List String
  | [] => []
  | v :: vs => jsString v :: jsStringList vs
end

/-- Model of the host string-to-number coercion used by `Number(string)`:
blank strings give 0, integer numerals parse, everything else is NaN. -/
def parseNumber (s : String) : Value :=
  if s.trim = "" then .num 0
  else match s.trim.toInt? with
    | some n => .num n
    | none => .nan

/-- The host `Number(...)` conversion. -/
def jsNumber : Value → Value
  | .undef => .nan
  | .vnull => .num 0
  | .bool true => .num 1
  | .bool false => .num 0
  | .num n => .num n
  | .nan => .nan
  | .str s => parseNumber s
  | .arr _ => .nan
  | .obj _ => .nan
  | .date t => .num t
  | .boxed v => jsNumber v

/-- The host `Boolean(...)` conversion. -/
def jsBoolean (v : Value) : Value := .bool (jsTruthy v)

/-- The host `Object(...)` conversion: objects pass through, `null` and
`undefined` give a fresh empty object, primitives are boxed. -/
def jsObjectFn (v : Value) : Value :=
  if isObject v then v
  else match v with
    | .undef => .obj []
    | .vnull => .obj []
    | w => .boxed w

/-- lodash `_.castArray`. -/
def castArray (v : Value) : Value :=
  match v with
  | .arr _ => v
  | w => .arr [w]

/-- Model of the host `new Date(...)` constructor: numbers are epoch
millis; other inputs are collapsed to epoch 0 (no theorem depends on the
non-numeric branches, which stand for the host's date parsing). -/
def newDate : Value → Value
  | .num n => .date n
  | .date t => .date t
  | _ => .date 0

/-! ## A model of the host `JSON.parse` (used by `isJson`) -/

/-- Skip JSON whitespace. -/
def skipWs : List Char → List Char
  | c :: cs => if c = ' ' ∨ c = '\t' ∨ c = '\n' ∨ c = '\r' then skipWs cs else c :: cs
  | [] => []

/-- Read a JSON string body after the opening quote (model: a backslash
makes the next character literal; no escape decoding). Returns the decoded
characters and the rest after the closing quote. -/
def readStringBody : Nat → List Char → Option (List Char × List Char)
  | 0, _ => none
  | _, [] => none
  | fuel + 1, c :: cs =>
    if c = '"' then some ([], cs)
    else if c = '\\' then
      match cs with
      | [] => none
      | d :: ds => (readStringBody fuel ds).map (fun r => (d :: r.1, r.2))
    else (readStringBody fuel cs).map (fun r => (c :: r.1, r.2))

/-- Read a run of decimal digits. -/
def readDigits : List Char → List Char × List Char
  | [] => ([], [])
  | c :: cs =>
    if c.isDigit then
      let r := readDigits cs
      (c :: r.1, r.2)
    else ([], c :: cs)

mutual
/-- One JSON value (model: integer numbers only). -/
def parseVal : Nat → List Char → Option (Value × List Char)
  | 0, _ => none
  | fuel + 1, input =>
    match skipWs input with
    | [] => none
    | c :: cs =>
      if c = 'n' then
        match cs with
        | 'u' :: 'l' :: 'l' :: rest => some (.vnull, rest)
        | _ => none
      else if c = 't' then
        match cs with
        | 'r' :: 'u' :: 'e' :: rest => some (.bool true, rest)
        | _ => none
      else if c = 'f' then
        match cs with
        | 'a' :: 'l' :: 's' :: 'e' :: rest => some (.bool false, rest)
        | _ => none
      else if c = '"' then
        (readStringBody fuel cs).map (fun r => (.str (String.mk r.1), r.2))
      else if c = '[' then
        match skipWs cs with
        | ']' :: rest => some (.arr [], rest)
        | other => (parseElems fuel other).map (fun r => (.arr r.1, r.2))
      else if c = '\x7b' then
        match skipWs cs with
        | '\x7d' :: rest => some (.obj [], rest)
        | other => (parseMembers fuel other).map (fun r => (.obj r.1, r.2))
      else if c = '-' then
        match readDigits cs with
        | ([], _) => none
        | (ds, rest) =>
          (String.mk ds).toInt?.map (fun n => (.num (-n), rest))
      else if c.isDigit then
        match readDigits (c :: cs) with
        | (ds, rest) =>
          (String.mk ds).toInt?.map (fun n => (.num n, rest))
      else none

/-- Comma-separated array elements up to the closing bracket. -/
def parseElems : Nat → List Char → Option (List Value × List Char)
  | 0, _ => none
  | fuel + 1, input =>
    match parseVal fuel input with
    | none => none
    | some (v, rest) =>
      match skipWs rest with
      | ',' :: more => (parseElems fuel more).map (fun r => (v :: r.1, r.2))
      | ']' :: more => some ([v], more)
      | _ => none

/-- Comma-separated object members up to the closing brace. -/
def parseMembers : Nat → List Char → Option (List (String × Value) × List Char)
  | 0, _ => none
  | fuel + 1, input =>
    match skipWs input with
    | '"' :: cs =>
      match readStringBody fuel cs with
      | none => none
      | some (key, afterKey) =>
        match skipWs afterKey with
        | ':' :: afterColon =>
          match parseVal fuel afterColon with
          | none => none
          | some (v, rest) =>
            match skipWs rest with
            | ',' :: more =>
              (parseMembers fuel more).map (fun r => ((String.mk key, v) :: r.1, r.2))
            | '\x7d' :: more => some ([(String.mk key, v)], more)
            | _ => none
        | _ => none
    | _ => none
end

/-- Model of the host `JSON.parse`: returns the parsed value, or `none`
for a parse error (the host throws). -/
def jsonParse (s : String) : Option Value :=
  match parseVal (s.length + 1) s.data with
  | some (v, rest) => if skipWs rest = [] then some v else none
  | none => none

mutual
/-- Model of the host `JSON.stringify` on already-checked values (used
only on the non-JSON branch of the json coercion; `undefined` stringifies
to `undefined`). -/
def jsonStringify : Value → Value
  | .undef => .undef
  | v => .str (jsonRender v)

def jsonRender : Value → String
  | .undef => "null"
  | .vnull => "null"
  | .bool true => "true"
  | .bool false => "false"
  | .num n => toString n
  | .nan => "null"
  | .str s => "\"" ++ s ++ "\""
  | .arr xs => "[" ++ String.intercalate "," (jsonRenderList xs) ++ "]"
  | .obj fs => "\x7b" ++ String.intercalate "," (jsonRenderFields fs) ++ "\x7d"
  | .date t => "\"Date:" ++ toString t ++ "\""
  | .boxed v => jsonRender v

def jsonRenderList : List Value → List String
  | [] => []
  | v :: vs => jsonRender v :: jsonRenderList vs

def jsonRenderFields : List (String × Value) → List String
  | [] => []
  | (k, v) :: fs => ("\"" ++ k ++ "\":" ++ jsonRender v) :: jsonRenderFields fs
end

/-- `isJson` from the source: `_.isString(value) && JSON.parse(value) &&
true`, with a parse error caught as false.  Note the JS expression is
falsy when the parse RESULT is falsy (e.g. the valid JSON texts "0",
"false", "null" are rejected), which the truthiness test reproduces. -/
def isJson (value : Value) : Bool :=
  match value with
  | .str s =>
    match jsonParse s with
    | some v => jsTruthy v
    | none => false
  | _ => false

/-! ## The Status accumulator (scoring variant, `src/checks/and.js`) -/

/-- `as.Status`: path stack, named definitions, quality score and the
recorded failure paths. -/
structure Status where
  path : List String
  defs : List (String × Value)
  quality : Rat
  failures : List String

/-- `new as.Status()` with no defs. -/
def Status.init : Status := ⟨[], [], 0, []⟩

/-- lodash `_.compact` over the pushed segments: drops null names and
empty strings. -/
def compactSegs (segs : List (Option String)) : List String :=
  segs.filterMap (fun s =>
    match s with
    | some t => if t = "" then none else some t
    | none => none)

/-- Join the current path with dots, as `path.join('.')`. -/
def joinDot (path : List String) : String := String.intercalate "." path

/-- The JS `s.startsWith(p)` test: `isPrefixStr p s` is true when `p` is a
string-prefix of `s` (defined over the character lists so that it
evaluates by reduction). -/
def isPrefixStr (p s : String) : Bool := p.data.isPrefixOf s.data

/-- `as.Status.prototype.push`: appends the extra key segments and then
the checker's name (compacted) to the path stack and returns the number of
segments actually pushed. -/
def Status.push (st : Status) (name : Option String) (keys : List (Option String)) :
    Nat × Status :=
  let segs := compactSegs (keys ++ [name])
  (segs.length, { st with path := st.path ++ segs })

/-- `as.Status.prototype.pop`: removes `count` segments from the end of
the path stack (popping an empty stack is a no-op, as in JS). -/
def Status.pop (st : Status) (count : Nat) : Status :=
  { st with path := st.path.take (st.path.length - count) }

/-- `as.Status.prototype.succeeded` (scoring variant): adjusts the quality
by the weight (an undefined weight counts as 1); on failure additionally
records the joined current path in `failures` unless it is a string-prefix
of an already-recorded failure (`_.some(this.failures,
_.method('startsWith', path))` asks whether some recorded failure STARTS
WITH the current path).  Returns the joined path, or `"any"` when the path
is empty. -/
def Status.succeeded (st : Status) (result : Bool) (weight : Option Rat) :
    String × Status :=
  let w := weight.getD 1
  let path := joinDot st.path
  if result then
    (if path = "" then "any" else path, { st with quality := st.quality + w })
  else
    let st1 : Status := { st with quality := st.quality - w }
    let st2 : Status :=
      if st1.failures.any (fun f => isPrefixStr path f) then st1
      else { st1 with failures := st1.failures ++ [path] }
    (if path = "" then "any" else path, st2)

/-- `as.Status.prototype.failed` (legacy variant, `src/index.js` lines
105-111): the same failure-path recording without the quality score. -/
def Status.failed (st : Status) : String × Status :=
  let path := joinDot st.path
  let st1 : Status :=
    if st.failures.any (fun f => isPrefixStr path f) then st
    else { st with failures := st.failures ++ [path] }
  (if path = "" then "any" else path, st1)

/-! ## Errors, raw checkers and the hydrator -/

/-- A JS `Error`: a name (the error class) and a message.  An empty
message models a falsy `err.message`. -/
structure JsError where
  name : String
  message : String
  deriving DecidableEq

/-- A raw checker object before hydration: the three bare operations.
Each returns its result (or a thrown error) together with the status as
mutated so far — mutations survive a throw. -/
structure RawChecker where
  matchesOp : Value → Status → Except JsError Bool × Status
  cast : Value → Status → Except JsError Value × Status
  validate : Value → Status → Except JsError Value × Status

/-- A hydrated checker: name, hydration weight (recorded as a field for
specification purposes; the source keeps it in the `bindStatus` closure),
and the three wrapped operations, each accepting extra key segments
(`key...` in the source) beyond value and status. -/
structure Checker where
  name : Option String
  weight : Option Rat
  matchesOp : Value → Status → List (Option String) → Except JsError Bool × Status
  cast : Value → Status → List (Option String) → Except JsError Value × Status
  validate : Value → Status → List (Option String) → Except JsError Value × Status

/-- `bindStatus` (`src/checks/and.js` lines 133-149): push the name and
extra keys, run the raw method, record the outcome via `succeeded`
(`succOf` captures `methodName !== 'matches' || result`), annotate a
thrown error carrying a message with `' at ' + path` (an error without a
message propagates untouched and records nothing), and pop exactly the
pushed count on every exit path. -/
def bindStatus {α : Type} (name : Option String) (weight : Option Rat)
    (succOf : α → Bool) (method : Value → Status → Except JsError α × Status)
    (value : Value) (status : Status) (keys : List (Option String)) :
    Except JsError α × Status :=
  let pushed := status.push name keys
  match method value pushed.2 with
  | (.ok result, st2) =>
    let sres := st2.succeeded (succOf result) weight
    (.ok result, sres.2.pop pushed.1)
  | (.error err, st2) =>
    if err.message = "" then (.error err, st2.pop pushed.1)
    else
      let sres := st2.succeeded false weight
      (.error { err with message := err.message ++ " at " ++ sres.1 },
       sres.2.pop pushed.1)

/-- `as.check(check, name, weight)`: hydrate a raw checker.  For `matches`
the raw boolean decides the recorded outcome; `cast` and `validate` record
success unless they throw. -/
def asCheck (check : RawChecker) (name : Option String) (weight : Option Rat) :
    Checker where
  name := name
  weight := weight
  matchesOp := bindStatus name weight (fun b => b) check.matchesOp
  cast := bindStatus name weight (fun _ => true) check.cast
  validate := bindStatus name weight (fun _ => true) check.validate

/-! ## The conjunction combinator (`src/checks/and.js`, lines 3-17) -/

/-- The raw object passed by the AND combinator to `as.check`:
`matches` is `left.matches(value, status) && right.matches(left.cast(value,
status), status, left.name)` (the host `&&` suspends its right operand, so
when `left.matches` is falsy neither `left.cast` nor `right.matches`
runs); `cast` and `validate` always sequence both sides.  `left.name` is
passed as an extra key segment for the right-hand invocations. -/
def andRaw (left right : Checker) : RawChecker where
  matchesOp := fun value status =>
    match left.matchesOp value status [] with
    | (.ok true, st1) =>
      match left.cast value st1 [] with
      | (.ok cv, st2) => right.matchesOp cv st2 [left.name]
      | (.error e, st2) => (.error e, st2)
    | (.ok false, st1) => (.ok false, st1)
    | (.error e, st1) => (.error e, st1)
  cast := fun value status =>
    match left.cast value status [] with
    | (.ok cv, st1) => right.cast cv st1 [left.name]
    | (.error e, st1) => (.error e, st1)
  validate := fun value status =>
    match left.validate value status [] with
    | (.ok cv, st1) => right.validate cv st1 [left.name]
    | (.error e, st1) => (.error e, st1)

/-- `left.and(right)`: the combinator resolves its arguments through the
dispatcher (`as.apply(null, arguments)`, which returns an already-built
checker unchanged) and hydrates the raw composition anonymously with
weight 0 (`as.check(..., null, 0)`). -/
def Checker.and (left right : Checker) : Checker :=
  asCheck (andRaw left right) none (some 0)

/-! ## The disjunction combinator (spec-modelled) -/

/-- Modelled from the spec: the OR combinator's source (the `or` module
required by the index) is not under `src/`.  Per §4.4, `matches` succeeds
if any branch matches, tried in argument order; `cast`/`validate` apply
the first branch that matches, or the first branch if none match; like
other logical combinators it is hydrated anonymously with weight 0. -/
def orRaw (left right : Checker) : RawChecker where
  matchesOp := fun value status =>
    match left.matchesOp value status [] with
    | (.ok true, st1) => (.ok true, st1)
    | (.ok false, st1) => right.matchesOp value st1 []
    | (.error e, st1) => (.error e, st1)
  cast := fun value status =>
    match left.matchesOp value status [] with
    | (.ok true, st1) => left.cast value st1 []
    | (.ok false, st1) =>
      match right.matchesOp value st1 [] with
      | (.ok true, st2) => right.cast value st2 []
      | (.ok false, st2) => left.cast value st2 []
      | (.error e, st2) => (.error e, st2)
    | (.error e, st1) => (.error e, st1)
  validate := fun value status =>
    match left.matchesOp value status [] with
    | (.ok true, st1) => left.validate value st1 []
    | (.ok false, st1) =>
      match right.matchesOp value st1 [] with
      | (.ok true, st2) => right.validate value st2 []
      | (.ok false, st2) => left.validate value st2 []
      | (.error e, st2) => (.error e, st2)
    | (.error e, st1) => (.error e, st1)

/-- Modelled from the spec: `left.or(right)` hydrated anonymously with
weight 0 (see `orRaw`). -/
def Checker.or (left right : Checker) : Checker :=
  asCheck (orRaw left right) none (some 0)

/-! ## The static (primitive) checkers -/

/-- The coercion of the string checker (`src/checks/and.js`, lines
171-174): stringification of null and undefined is not pleasant, so they
coerce to the empty string; everything else goes through the host
`String(...)`. -/
def stringCoerce (value : Value) : Value :=
  if isUndefined value || isNull value then .str "" else .str (jsString value)

/-- The coercion of the legacy string checker (`src/index.js`, line 148):
the bare host `String(...)`, without the null/undefined guard. -/
def stringCoerceLegacy (value : Value) : Value := .str (jsString value)

/-- The coercion of the date checker: the Date constructor is not
idempotent, so dates pass through unchanged. -/
def dateCoerce (value : Value) : Value :=
  if isDate value then value else newDate value

/-- The coercion of the json checker: JSON.stringify is not idempotent, so
values already detected as JSON pass through unchanged. -/
def jsonCoerce (value : Value) : Value :=
  if isJson value then value else jsonStringify value

/-- The coercion of the error checker: `_.constant(undefined)`. -/
def errorCoerce : Value → Value := fun _ => (.undef : Value)

/-- Modelled from the spec: the static-checker factory's module
(`src/checks/static.js`) is not under `src/`; per §6 it pairs a predicate,
a coercion and a failure message into a raw three-operation object
(matches = predicate, cast = coercion, validate delegating to the
coercion), hydrated by `as.check` under the given name and weight.  The
failure message is carried for diagnostics only. -/
def staticCheck (nm : String) (pred : Value → Bool) (coer : Value → Value)
    (fmsg : String) (weight : Option Rat) : Checker :=
  asCheck
    { matchesOp := fun v st => (.ok (pred v), st)
      cast := fun v st => (.ok (coer v), st)
      validate := fun v st => (.ok (coer v), st) }
    (some nm) weight

/-- `TYPE_WEIGHT = 0.5`: type checking is a weak check compared to, say,
equality. -/
def TYPE_WEIGHT : Rat := 1 / 2

/-- `as.error` — note the factory call passes no weight, so this checker's
hydration weight is undefined. -/
def errorChecker : Checker :=
  staticCheck "error" isUndefined errorCoerce "Not allowed" none

/-- `as.object`. -/
def objectChecker : Checker :=
  staticCheck "object" isObject jsObjectFn "Not an object" (some TYPE_WEIGHT)

/-- `as.array`. -/
def arrayChecker : Checker :=
  staticCheck "array" isArray castArray "Not an array" (some TYPE_WEIGHT)

/-- `as.boolean`. -/
def booleanChecker : Checker :=
  staticCheck "boolean" isBoolean jsBoolean "Not a boolean" (some TYPE_WEIGHT)

/-- `as.string` (scoring variant, with the null/undefined guard). -/
def stringChecker : Checker :=
  staticCheck "string" isString stringCoerce "Not a string" (some TYPE_WEIGHT)

/-- `as.number`. -/
def numberChecker : Checker :=
  staticCheck "number" isNumber jsNumber "Not a number" (some TYPE_WEIGHT)

/-- `as.date`. -/
def dateChecker : Checker :=
  staticCheck "date" isDate dateCoerce "Not a date" (some TYPE_WEIGHT)

/-- `as.json`. -/
def jsonChecker : Checker :=
  staticCheck "json" isJson jsonCoerce "Not JSON" (some TYPE_WEIGHT)

/-! ## The dispatcher `as(...)` -/

/-- The raw operations of the `as` function itself: `as.matches =
_.constant(true)`, `as.cast = _.identity`, `as.validate = _.identity`. -/
def rawAs : RawChecker where
  matchesOp := fun _ st => (.ok true, st)
  cast := fun v st => (.ok v, st)
  validate := fun v st => (.ok v, st)

/-- The `as` function is itself a checker: `as.check(as, null, 0)`.  The
hydration's name parameter is null (so nothing is pushed on the path), but
the assignment `check.name = name` on a function object is a silent no-op
in JS, so the `name` PROPERTY read by combinators stays the function's own
name, "as". -/
def asChecker : Checker :=
  { asCheck rawAs none (some 0) with name := some "as" }

/-- A schema description accepted by the dispatcher.  The branches whose
resolution targets live in modules missing from `src/` (array and object
templates via `.with`, regular expressions, functions, literal equality)
are not modelled; no claim depends on them. -/
inductive Desc where
  | checker (c : Checker)
  | markError
  | markArray
  | markObject
  | markBoolean
  | markString
  | markNumber
  | markDate
  | markJSON

/-- `as1(what)`: resolve one schema description (the `switch` in the
index).  An already-built checker (`what.__isChecker`) is returned
unchanged; the primitive markers resolve to the static checkers. -/
def as1 : Desc → Checker
  | .checker c => c
  | .markError => errorChecker
  | .markArray => arrayChecker
  | .markObject => objectChecker
  | .markBoolean => booleanChecker
  | .markString => stringChecker
  | .markNumber => numberChecker
  | .markDate => dateChecker
  | .markJSON => jsonChecker

/-- `as(what...)`: zero arguments returns the `as` checker itself; one
argument resolves it via `as1`; more arguments OR the first resolved
argument with the dispatch of the rest
(`as1(arguments[0]).or(as.apply(this, _.slice(arguments, 1)))`). -/
def asDispatch : List Desc → Checker
  | [] => asChecker
  | [d] => as1 d
  | d :: e :: rest => (as1 d).or (asDispatch (e :: rest))

/-! ## A syntax for the checkers built from the combinators in `src/`

Used to state walk-global properties ("every checker invocation along the
walk"): trees of static leaves composed with AND, interpreted into the
very checkers defined above. -/

/-- Checker syntax: static leaves and conjunctions. -/
inductive CT where
  | leaf (nm : String) (pred : Value → Bool) (coer : Value → Value) (w : Option Rat)
  | conj (l r : CT)

/-- Interpret the syntax with the real `staticCheck` and `Checker.and`. -/
def CT.interp : CT → Checker
  | .leaf nm pred coer w => staticCheck nm pred coer "" w
  | .conj l r => (CT.interp l).and (CT.interp r)

/-- The value produced by the cast (and validate) walk of a tree. -/
def CT.castVal : CT → Value → Value
  | .leaf _ _ coer _, v => coer v
  | .conj l r, v => CT.castVal r (CT.castVal l v)

/-- The boolean produced by the matches walk of a tree. -/
def CT.matchesRes : CT → Value → Bool
  | .leaf _ pred _ _, v => pred v
  | .conj l r, v => CT.matchesRes l v && CT.matchesRes r (CT.castVal l v)

/-- The (weight, outcome) record of every checker invocation along a cast
walk, in invocation-completion order: an undefined weight counts as 1, a
conjunction records its two sides and then its own weight-0 success. -/
def CT.castEvents : CT → Value → List (Rat × Bool)
  | .leaf _ _ _ w, _ => [(w.getD 1, true)]
  | .conj l r, v =>
    CT.castEvents l v ++ CT.castEvents r (CT.castVal l v) ++ [(0, true)]

/-- The (weight, outcome) record of every checker invocation along a
matches walk: when the left side of a conjunction fails, the walk
short-circuits — the left cast and the right side are never invoked. -/
def CT.matchEvents : CT → Value → List (Rat × Bool)
  | .leaf _ pred _ w, v => [(w.getD 1, pred v)]
  | .conj l r, v =>
    if CT.matchesRes l v then
      CT.matchEvents l v ++ CT.castEvents l v ++ CT.matchEvents r (CT.castVal l v)
        ++ [(0, CT.matchesRes r (CT.castVal l v))]
    else
      CT.matchEvents l v ++ [(0, false)]

/-- The signed sum of a list of invocation records: plus the weight for a
success, minus the weight for a failure. -/
def signedSum : List (Rat × Bool) → Rat
  | [] => 0
  | (w, b) :: es => (if b then w else -w) + signedSum es

/-! ## Basic bookkeeping lemmas -/

theorem signedSum_append (a b : List (Rat × Bool)) :
    signedSum (a ++ b) = signedSum a + signedSum b := by
  induction a with
  | nil => simp [signedSum]
  | cons e es ih => cases e; simp [signedSum, ih]; ring

@[simp] theorem push_quality (st : Status) (nm : Option String)
    (keys : List (Option String)) : ((st.push nm keys).2).quality = st.quality := rfl

@[simp] theorem push_failures (st : Status) (nm : Option String)
    (keys : List (Option String)) : ((st.push nm keys).2).failures = st.failures := rfl

theorem push_path (st : Status) (nm : Option String) (keys : List (Option String)) :
    ((st.push nm keys).2).path = st.path ++ compactSegs (keys ++ [nm]) := rfl

theorem push_count (st : Status) (nm : Option String) (keys : List (Option String)) :
    (st.push nm keys).1 = (compactSegs (keys ++ [nm])).length := rfl

@[simp] theorem pop_quality (st : Status) (n : Nat) :
    (st.pop n).quality = st.quality := rfl

@[simp] theorem pop_failures (st : Status) (n : Nat) :
    (st.pop n).failures = st.failures := rfl

theorem succeeded_quality (st : Status) (r : Bool) (w : Option Rat) :
    ((st.succeeded r w).2).quality =
      if r then st.quality + w.getD 1 else st.quality - w.getD 1 := by
  cases r
  · cases h : st.failures.any (fun f => isPrefixStr (joinDot st.path) f) <;>
      simp [Status.succeeded, h]
  · simp [Status.succeeded]

@[simp] theorem succeeded_path (st : Status) (r : Bool) (w : Option Rat) :
    ((st.succeeded r w).2).path = st.path := by
  cases r
  · cases h : st.failures.any (fun f => isPrefixStr (joinDot st.path) f) <;>
      simp [Status.succeeded, h]
  · simp [Status.succeeded]

theorem succeeded_fst (st : Status) (r : Bool) (w : Option Rat) :
    (st.succeeded r w).1 =
      if joinDot st.path = "" then "any" else joinDot st.path := by
  cases r <;> simp [Status.succeeded]

theorem succeeded_failures_true (st : Status) (w : Option Rat) :
    ((st.succeeded true w).2).failures = st.failures := rfl

theorem succeeded_failures_false (st : Status) (w : Option Rat) :
    ((st.succeeded false w).2).failures =
      if st.failures.any (fun f => isPrefixStr (joinDot st.path) f) then st.failures
      else st.failures ++ [joinDot st.path] := by
  cases h : st.failures.any (fun f => isPrefixStr (joinDot st.path) f) <;>
    simp [Status.succeeded, h]

/-- Popping exactly what a push appended restores the original path. -/
theorem pop_push_path (st st2 : Status) (nm : Option String)
    (keys : List (Option String)) (hp : st2.path = ((st.push nm keys).2).path) :
    (st2.pop (st.push nm keys).1).path = st.path := by
  simp only [Status.pop, hp, push_path, push_count, List.length_append]
  rw [Nat.add_sub_cancel, List.take_left]

/-- Evaluation of `bindStatus` when the raw method returns normally. -/
theorem bindStatus_ok {α : Type} (nm : Option String) (w : Option Rat)
    (so : α → Bool) (f : Value → Status → Except JsError α × Status)
    (v : Value) (st : Status) (keys : List (Option String)) (r : α) (st2 : Status)
    (h : f v ((st.push nm keys).2) = (.ok r, st2)) :
    bindStatus nm w so f v st keys =
      (.ok r, ((st2.succeeded (so r) w).2).pop (st.push nm keys).1) := by
  simp [bindStatus, h]

/-- Evaluation of `bindStatus` when the raw method throws. -/
theorem bindStatus_error {α : Type} (nm : Option String) (w : Option Rat)
    (so : α → Bool) (f : Value → Status → Except JsError α × Status)
    (v : Value) (st : Status) (keys : List (Option String)) (e : JsError)
    (st2 : Status) (h : f v ((st.push nm keys).2) = (.error e, st2)) :
    bindStatus nm w so f v st keys =
      if e.message = "" then (.error e, st2.pop (st.push nm keys).1)
      else
        (.error { e with message := e.message ++ " at " ++ (st2.succeeded false w).1 },
         ((st2.succeeded false w).2).pop (st.push nm keys).1) := by
  simp [bindStatus, h]

theorem pop_zero (st : Status) : st.pop 0 = st := by
  simp [Status.pop]

theorem push_none_nil (st : Status) : (st.push none ([] : List (Option String))).2 = st := by
  simp [Status.push, compactSegs]

theorem bindStatus_ok_fst {α : Type} (nm : Option String) (w : Option Rat)
    (so : α → Bool) (f : Value → Status → Except JsError α × Status)
    (v : Value) (st : Status) (keys : List (Option String)) (r : α) (st2 : Status)
    (h : f v ((st.push nm keys).2) = (.ok r, st2)) :
    (bindStatus nm w so f v st keys).1 = .ok r := by
  rw [bindStatus_ok nm w so f v st keys r st2 h]

theorem bindStatus_ok_quality {α : Type} (nm : Option String) (w : Option Rat)
    (so : α → Bool) (f : Value → Status → Except JsError α × Status)
    (v : Value) (st : Status) (keys : List (Option String)) (r : α) (st2 : Status)
    (h : f v ((st.push nm keys).2) = (.ok r, st2)) :
    ((bindStatus nm w so f v st keys).2).quality =
      if so r then st2.quality + w.getD 1 else st2.quality - w.getD 1 := by
  rw [bindStatus_ok nm w so f v st keys r st2 h]
  simp [succeeded_quality]

/-- The failures recorded by the legacy `failed`, in closed form. -/
theorem failed_failures (st : Status) :
    ((st.failed).2).failures =
      if st.failures.any (fun f => isPrefixStr (joinDot st.path) f) then st.failures
      else st.failures ++ [joinDot st.path] := by
  cases h : st.failures.any (fun f => isPrefixStr (joinDot st.path) f) <;>
    simp [Status.failed, h]

/-! ## Claim C2 — failure-path deduplication -/

/-- C2 (counterexample): with current path `a.b` and the failure `a`
already recorded, the existing failure `"a"` IS a string-prefix of the
joined path `"a.b"`, yet recording the failure still appends `"a.b"` (in
the scoring recorder `succeeded` and in the legacy recorder `failed`
alike): the code skips insertion only when the current path is a prefix of
an existing failure, not the other way round, so a recorded parent path
does not suppress deeper paths. -/
theorem failure_dedup_cex :
    isPrefixStr "a" "a.b" = true ∧
    (((Status.mk ["a", "b"] [] 0 ["a"]).succeeded false none).2).failures
      = ["a", "a.b"] ∧
    (((Status.mk ["a", "b"] [] 0 ["a"]).failed).2).failures = ["a", "a.b"] := by
  refine ⟨by decide, ?_, ?_⟩ <;> rfl

/-- C2 (amended): when a failure is recorded, the joined current path `p`
is added to `failures` unless `p` is a string-prefix of some
already-recorded failure; under that rule a deeper failure path, once
recorded, suppresses later shallower (ancestor) failure paths from the
same branch.  This holds for the scoring recorder `succeeded` and for the
legacy recorder `failed`. -/
theorem failure_dedup (st : Status) (w : Option Rat) :
    ((∃ f ∈ st.failures, isPrefixStr (joinDot st.path) f) →
        ((st.succeeded false w).2).failures = st.failures ∧
        ((st.failed).2).failures = st.failures)
    ∧ ((¬ ∃ f ∈ st.failures, isPrefixStr (joinDot st.path) f) →
        ((st.succeeded false w).2).failures = st.failures ++ [joinDot st.path] ∧
        ((st.failed).2).failures = st.failures ++ [joinDot st.path]) := by
  have hiff : st.failures.any (fun f => isPrefixStr (joinDot st.path) f) = true ↔
      ∃ f ∈ st.failures, isPrefixStr (joinDot st.path) f := by
    simp [List.any_eq_true]
  constructor
  · intro h
    rw [succeeded_failures_false, failed_failures, if_pos (hiff.mpr h)]
    exact ⟨rfl, rfl⟩
  · intro h
    have hfalse : st.failures.any (fun f => isPrefixStr (joinDot st.path) f) = false := by
      cases hc : st.failures.any (fun f => isPrefixStr (joinDot st.path) f)
      · rfl
      · exact absurd (hiff.mp hc) h
    rw [succeeded_failures_false, failed_failures, hfalse]
    exact ⟨rfl, rfl⟩

/-- Witness for `failure_dedup`: with the deeper failure `a.b` recorded
and current path `a`, nothing is appended. -/
theorem failure_dedup_witness :
    (((Status.mk ["a"] [] 0 ["a.b"]).succeeded false none).2).failures = ["a.b"] ∧
    (((Status.mk ["a"] [] 0 ["a.b"]).failed).2).failures = ["a.b"] :=
  (failure_dedup (Status.mk ["a"] [] 0 ["a.b"]) none).1
    ⟨"a.b", by decide, by decide⟩

/-! ## Claim C4 — exception-message annotation -/

/-- C4: when the raw operation under the hydrator's wrapper throws an
error carrying a message, the wrapper rethrows the same error with
`" at "` followed by the joined current path (or `"any"` when the path is
empty) appended to its message; an error without a message propagates
completely unmodified. -/
theorem error_enrichment {α : Type} (nm : Option String) (w : Option Rat)
    (so : α → Bool) (f : Value → Status → Except JsError α × Status)
    (v : Value) (st : Status) (keys : List (Option String)) (e : JsError)
    (st2 : Status) (h : f v ((st.push nm keys).2) = (.error e, st2)) :
    (bindStatus nm w so f v st keys).1 =
      if e.message = "" then .error e
      else .error { e with message := e.message ++ " at " ++
        (if joinDot st2.path = "" then "any" else joinDot st2.path) } := by
  rw [bindStatus_error nm w so f v st keys e st2 h]
  split <;> simp [succeeded_fst]

/-- Witness for `error_enrichment`: a raw operation throwing
`Error("boom")` under the name `n` surfaces as the same error with message
`"boom at n"`. -/
theorem error_enrichment_witness :
    (bindStatus (some "n") (some 1) (fun b : Bool => b)
        (fun _ st => (.error ⟨"Error", "boom"⟩, st)) .undef Status.init []).1 =
      .error ⟨"Error", "boom at n"⟩ := by
  rw [error_enrichment (some "n") (some 1) (fun b : Bool => b)
    (fun _ st => (.error ⟨"Error", "boom"⟩, st)) .undef Status.init []
    ⟨"Error", "boom"⟩ (Status.mk ["n"] [] 0 []) rfl]
  rfl

/-! ## Claim C9 — the string checker's coercion on 123 and null -/

/-- C9: the string checker's coercion turns the number 123 into the
string "123" and null into the empty string, both as the raw coercion
function and through the hydrated checker's `cast`.  (This is the scoring
variant's string checker, `src/checks/and.js` lines 171-174; the legacy
`as.string` of `src/index.js` line 148 uses the bare host `String` and
would turn null into "null" instead.) -/
theorem string_coerce_concrete :
    stringCoerce (.num 123) = .str "123" ∧ stringCoerce .vnull = .str "" ∧
    (stringChecker.cast (.num 123) Status.init []).1 = .ok (.str "123") ∧
    (stringChecker.cast .vnull Status.init []).1 = .ok (.str "") := by
  refine ⟨rfl, rfl, rfl, rfl⟩

/-! ## Claim C10 — undefined hydration weight defaults to 1 -/

/-- C10: a checker hydrated without an explicit weight (weight undefined)
moves the quality by exactly +1 when the recorded outcome is a success and
by exactly -1 when it is a failure: `succeeded` substitutes 1 for an
undefined weight (first conjunct), and a matches invocation of such a
checker shifts the quality by exactly ±1 (second conjunct). -/
theorem default_weight_one :
    (∀ (st : Status) (r : Bool),
        ((st.succeeded r none).2).quality =
          if r then st.quality + 1 else st.quality - 1)
    ∧ (∀ (raw : RawChecker) (nm : Option String) (v : Value) (st : Status)
        (keys : List (Option String)) (r : Bool) (st2 : Status),
        raw.matchesOp v ((st.push nm keys).2) = (.ok r, st2) →
        ((asCheck raw nm none).matchesOp v st keys).2.quality =
          if r then st2.quality + 1 else st2.quality - 1) := by
  constructor
  · intro st r
    simpa using succeeded_quality st r none
  · intro raw nm v st keys r st2 h
    have hb := bindStatus_ok nm none (fun b => b) raw.matchesOp v st keys r st2 h
    simp only [asCheck] at *
    rw [hb]
    simp [succeeded_quality]

/-- Witness for `default_weight_one`: the error checker (hydrated by the
factory call that passes no weight) gains quality 1 on a successful
match. -/
theorem default_weight_one_witness :
    (errorChecker.matchesOp .undef Status.init []).2.quality = 1 := by
  have h := default_weight_one.2
    { matchesOp := fun v st => (.ok (isUndefined v), st)
      cast := fun v st => (.ok (errorCoerce v), st)
      validate := fun v st => (.ok (errorCoerce v), st) }
    (some "error") .undef Status.init [] true (Status.mk ["error"] [] 0 []) rfl
  simpa [errorChecker, staticCheck] using h

/-! ## Claim C1 — conjunction: matches truth table and short-circuit -/

/-- C1: `a.and(b).matches(v)` holds exactly when `a.matches(v)` holds and
`b.matches` holds of `a`'s coerced output of `v` (statuses threaded as the
source threads them, with `a.name` as the extra path key for `b`);
moreover, whenever `a.matches(v)` is false the result of the composite
does not depend on `b` at all — `b` is never invoked. -/
theorem and_matches_spec (a b : Checker) (v : Value) (st st1 : Status) (ra : Bool)
    (ha : a.matchesOp v st [] = (.ok ra, st1)) :
    (∀ cv st2 rb st3,
        a.cast v st1 [] = (.ok cv, st2) →
        b.matchesOp cv st2 [a.name] = (.ok rb, st3) →
        ((a.and b).matchesOp v st []).1 = .ok (ra && rb))
    ∧ (ra = false →
        ∀ b2 : Checker, (a.and b).matchesOp v st [] = (a.and b2).matchesOp v st []) := by
  constructor
  · intro cv st2 rb st3 hc hb
    cases ra with
    | false =>
      have hraw : (andRaw a b).matchesOp v
          ((st.push none ([] : List (Option String))).2) = (.ok false, st1) := by
        rw [push_none_nil]
        simp [andRaw, ha]
      simpa using bindStatus_ok_fst none (some 0) (fun x => x)
        (andRaw a b).matchesOp v st [] false st1 hraw
    | true =>
      have hraw : (andRaw a b).matchesOp v
          ((st.push none ([] : List (Option String))).2) = (.ok rb, st3) := by
        rw [push_none_nil]
        simp [andRaw, ha, hc, hb]
      simpa using bindStatus_ok_fst none (some 0) (fun x => x)
        (andRaw a b).matchesOp v st [] rb st3 hraw
  · intro hra b2
    subst hra
    have h1 : (andRaw a b).matchesOp v
        ((st.push none ([] : List (Option String))).2) = (.ok false, st1) := by
      rw [push_none_nil]
      simp [andRaw, ha]
    have h2 : (andRaw a b2).matchesOp v
        ((st.push none ([] : List (Option String))).2) = (.ok false, st1) := by
      rw [push_none_nil]
      simp [andRaw, ha]
    show bindStatus none (some 0) (fun x => x) (andRaw a b).matchesOp v st [] =
      bindStatus none (some 0) (fun x => x) (andRaw a b2).matchesOp v st []
    rw [bindStatus_ok none (some 0) (fun x => x) (andRaw a b).matchesOp v st []
        false st1 h1,
      bindStatus_ok none (some 0) (fun x => x) (andRaw a b2).matchesOp v st []
        false st1 h2]

/-- Witness for `and_matches_spec`: two string checkers conjoined accept
the string "x". -/
theorem and_matches_spec_witness :
    ((stringChecker.and stringChecker).matchesOp (.str "x") Status.init []).1 =
      .ok true := by
  have h := (and_matches_spec stringChecker stringChecker (.str "x") Status.init
      (Status.mk [] [] (0 + TYPE_WEIGHT) []) true rfl).1
      (.str "x") (Status.mk [] [] (0 + TYPE_WEIGHT + TYPE_WEIGHT) [])
      true (Status.mk [] [] (0 + TYPE_WEIGHT + TYPE_WEIGHT + TYPE_WEIGHT) []) rfl rfl
  simpa using h

/-! ## Claim C7 — the AND wrapper is anonymous, weight 0, quality-neutral -/

/-- C7: `x.and(y)` is hydrated anonymous (`null` name is pushed) with
weight 0, and on every exit path (normal return, throw with or without a
message) the quality after the composite call equals the quality produced
by the raw body alone — i.e. by the invocations of `x` and `y` — so the
AND wrapper's own success/failure recording never moves the score. -/
theorem and_weight_zero (a b : Checker) :
    (a.and b).name = none ∧ (a.and b).weight = some 0 ∧
    ∀ v st keys,
      (((a.and b).matchesOp v st keys).2).quality =
        (((andRaw a b).matchesOp v ((st.push none keys).2)).2).quality ∧
      (((a.and b).cast v st keys).2).quality =
        (((andRaw a b).cast v ((st.push none keys).2)).2).quality ∧
      (((a.and b).validate v st keys).2).quality =
        (((andRaw a b).validate v ((st.push none keys).2)).2).quality := by
  refine ⟨rfl, rfl, fun v st keys => ⟨?_, ?_, ?_⟩⟩
  · show ((bindStatus none (some 0) (fun x => x)
        (andRaw a b).matchesOp v st keys).2).quality = _
    cases hr : (andRaw a b).matchesOp v ((st.push none keys).2) with
    | mk e stf =>
      cases e with
      | ok r =>
        rw [bindStatus_ok none (some 0) (fun x => x) _ v st keys r stf hr]
        simp [succeeded_quality]
      | error err =>
        rw [bindStatus_error none (some 0) (fun x => x) _ v st keys err stf hr]
        split <;> simp [succeeded_quality]
  · show ((bindStatus none (some 0) (fun _ => true)
        (andRaw a b).cast v st keys).2).quality = _
    cases hr : (andRaw a b).cast v ((st.push none keys).2) with
    | mk e stf =>
      cases e with
      | ok r =>
        rw [bindStatus_ok none (some 0) (fun _ => true) _ v st keys r stf hr]
        simp [succeeded_quality]
      | error err =>
        rw [bindStatus_error none (some 0) (fun _ => true) _ v st keys err stf hr]
        split <;> simp [succeeded_quality]
  · show ((bindStatus none (some 0) (fun _ => true)
        (andRaw a b).validate v st keys).2).quality = _
    cases hr : (andRaw a b).validate v ((st.push none keys).2) with
    | mk e stf =>
      cases e with
      | ok r =>
        rw [bindStatus_ok none (some 0) (fun _ => true) _ v st keys r stf hr]
        simp [succeeded_quality]
      | error err =>
        rw [bindStatus_error none (some 0) (fun _ => true) _ v st keys err stf hr]
        split <;> simp [succeeded_quality]

/-! ## Claim C5 — the dispatcher -/

/-- C5: with zero arguments the dispatcher returns the universal
pass-through checker (matches always true, cast and validate return their
input unchanged); with one argument it resolves that description via
`as1`; with two or more it ORs the first resolved argument with the
dispatch of the rest, left to right. -/
theorem dispatcher_spec :
    (∀ v st keys, ((asDispatch []).matchesOp v st keys).1 = .ok true)
    ∧ (∀ v st keys, ((asDispatch []).cast v st keys).1 = .ok v)
    ∧ (∀ v st keys, ((asDispatch []).validate v st keys).1 = .ok v)
    ∧ (∀ d, asDispatch [d] = as1 d)
    ∧ (∀ d ds, ds ≠ [] → asDispatch (d :: ds) = (as1 d).or (asDispatch ds)) := by
  refine ⟨fun v st keys => ?_, fun v st keys => ?_, fun v st keys => ?_,
    fun d => rfl, fun d ds hne => ?_⟩
  · exact bindStatus_ok_fst none (some 0) (fun x => x) rawAs.matchesOp v st keys
      true ((st.push none keys).2) rfl
  · exact bindStatus_ok_fst none (some 0) (fun _ => true) rawAs.cast v st keys
      v ((st.push none keys).2) rfl
  · exact bindStatus_ok_fst none (some 0) (fun _ => true) rawAs.validate v st keys
      v ((st.push none keys).2) rfl
  · cases ds with
    | nil => exact absurd rfl hne
    | cons e rest => rfl

/-- Witness for `dispatcher_spec`: a two-description dispatch is the OR of
the first resolved description with the dispatch of the rest, and the
zero-argument dispatcher passes an arbitrary concrete value through. -/
theorem dispatcher_spec_witness :
    asDispatch [Desc.markString, Desc.markNumber] =
      (as1 Desc.markString).or (asDispatch [Desc.markNumber]) ∧
    ((asDispatch []).cast (.num 7) Status.init []).1 = .ok (.num 7) :=
  ⟨dispatcher_spec.2.2.2.2 Desc.markString [Desc.markNumber]
      (List.cons_ne_nil _ _),
   dispatcher_spec.2.1 (.num 7) Status.init []⟩

/-! ## Claim C3 — path-stack balance on every exit path -/

/-- A raw checker that leaves the path stack as it found it (the raw
operations of the static checkers and of the `as` checker never touch the
path; a combinator body preserves it because its sub-checkers are
themselves wrapped). -/
def RawBalanced (raw : RawChecker) : Prop :=
  (∀ v st, ((raw.matchesOp v st).2).path = st.path) ∧
  (∀ v st, ((raw.cast v st).2).path = st.path) ∧
  (∀ v st, ((raw.validate v st).2).path = st.path)

/-- A hydrated checker whose three wrapped operations restore the path
stack exactly, on any input and any exit path. -/
def Checker.PathBalanced (c : Checker) : Prop :=
  (∀ v st keys, ((c.matchesOp v st keys).2).path = st.path) ∧
  (∀ v st keys, ((c.cast v st keys).2).path = st.path) ∧
  (∀ v st keys, ((c.validate v st keys).2).path = st.path)

/-- The wrapper pops exactly what it pushed, also when the raw operation
throws (with or without a message). -/
theorem bindStatus_path {α : Type} (nm : Option String) (w : Option Rat)
    (so : α → Bool) (f : Value → Status → Except JsError α × Status)
    (hf : ∀ v st, ((f v st).2).path = st.path)
    (v : Value) (st : Status) (keys : List (Option String)) :
    ((bindStatus nm w so f v st keys).2).path = st.path := by
  cases hr : f v ((st.push nm keys).2) with
  | mk e stf =>
    have hp : stf.path = ((st.push nm keys).2).path := by
      have := hf v ((st.push nm keys).2)
      rw [hr] at this
      exact this
    cases e with
    | ok r =>
      rw [bindStatus_ok nm w so f v st keys r stf hr]
      exact pop_push_path st _ nm keys (by rw [succeeded_path]; exact hp)
    | error err =>
      rw [bindStatus_error nm w so f v st keys err stf hr]
      split
      · exact pop_push_path st stf nm keys hp
      · exact pop_push_path st _ nm keys (by rw [succeeded_path]; exact hp)

/-- The AND body only invokes the (balanced) wrapped operations of its two
sides, so it preserves the path. -/
theorem andRaw_balanced (a b : Checker) (ha : a.PathBalanced) (hb : b.PathBalanced) :
    RawBalanced (andRaw a b) := by
  obtain ⟨ham, hac, hav⟩ := ha
  obtain ⟨hbm, hbc, hbv⟩ := hb
  refine ⟨fun v st => ?_, fun v st => ?_, fun v st => ?_⟩
  · cases hA : a.matchesOp v st [] with
    | mk e1 s1 =>
      have h1 : s1.path = st.path := by
        have := ham v st []
        rw [hA] at this
        exact this
      cases e1 with
      | error err => simpa [andRaw, hA] using h1
      | ok rb1 =>
        cases rb1 with
        | false => simpa [andRaw, hA] using h1
        | true =>
          cases hB : a.cast v s1 [] with
          | mk e2 s2 =>
            have h2 : s2.path = s1.path := by
              have := hac v s1 []
              rw [hB] at this
              exact this
            cases e2 with
            | error err => simpa [andRaw, hA, hB] using h2.trans h1
            | ok cv =>
              cases hC : b.matchesOp cv s2 [a.name] with
              | mk e3 s3 =>
                have h3 : s3.path = s2.path := by
                  have := hbm cv s2 [a.name]
                  rw [hC] at this
                  exact this
                simpa [andRaw, hA, hB, hC] using (h3.trans h2).trans h1
  · cases hA : a.cast v st [] with
    | mk e1 s1 =>
      have h1 : s1.path = st.path := by
        have := hac v st []
        rw [hA] at this
        exact this
      cases e1 with
      | error err => simpa [andRaw, hA] using h1
      | ok cv =>
        cases hB : b.cast cv s1 [a.name] with
        | mk e2 s2 =>
          have h2 : s2.path = s1.path := by
            have := hbc cv s1 [a.name]
            rw [hB] at this
            exact this
          simpa [andRaw, hA, hB] using h2.trans h1
  · cases hA : a.validate v st [] with
    | mk e1 s1 =>
      have h1 : s1.path = st.path := by
        have := hav v st []
        rw [hA] at this
        exact this
      cases e1 with
      | error err => simpa [andRaw, hA] using h1
      | ok cv =>
        cases hB : b.validate cv s1 [a.name] with
        | mk e2 s2 =>
          have h2 : s2.path = s1.path := by
            have := hbv cv s1 [a.name]
            rw [hB] at this
            exact this
          simpa [andRaw, hA, hB] using h2.trans h1

/-- C3: for every checker, however composed, and every invocation of its
wrapped operations on any input — including raw operations that throw —
the path stack after the call is exactly the path stack before the call
(in particular its length is unchanged): hydrating any path-preserving raw
object gives a balanced checker, every static checker is balanced, the
conjunction of balanced checkers is balanced, and for a balanced checker
the stack length is restored on every call. -/
theorem path_stack_balance :
    (∀ raw nm w, RawBalanced raw → (asCheck raw nm w).PathBalanced)
    ∧ (∀ nm pred coer msg w, (staticCheck nm pred coer msg w).PathBalanced)
    ∧ (∀ a b : Checker, a.PathBalanced → b.PathBalanced → (a.and b).PathBalanced)
    ∧ (∀ c : Checker, c.PathBalanced → ∀ v st keys,
        (((c.matchesOp v st keys).2).path.length = st.path.length ∧
         ((c.cast v st keys).2).path.length = st.path.length ∧
         ((c.validate v st keys).2).path.length = st.path.length)) := by
  have hwrap : ∀ raw nm w, RawBalanced raw → (asCheck raw nm w).PathBalanced := by
    intro raw nm w ⟨h1, h2, h3⟩
    exact ⟨bindStatus_path nm w _ raw.matchesOp h1,
      bindStatus_path nm w _ raw.cast h2,
      bindStatus_path nm w _ raw.validate h3⟩
  refine ⟨hwrap, ?_, ?_, ?_⟩
  · intro nm pred coer msg w
    exact hwrap _ (some nm) w
      ⟨fun v st => rfl, fun v st => rfl, fun v st => rfl⟩
  · intro a b ha hb
    exact hwrap _ none (some 0) (andRaw_balanced a b ha hb)
  · intro c ⟨h1, h2, h3⟩ v st keys
    exact ⟨by rw [h1], by rw [h2], by rw [h3]⟩

/-- Witness for `path_stack_balance`: a composed checker invoked on a
non-matching input, and a hydrated always-throwing checker, both restore
the empty path. -/
theorem path_stack_balance_witness :
    (((stringChecker.and numberChecker).matchesOp (.str "x")
        Status.init []).2).path.length = 0 ∧
    (((asCheck
        { matchesOp := fun _ st => (.error ⟨"Error", "boom"⟩, st)
          cast := fun _ st => (.error ⟨"Error", "boom"⟩, st)
          validate := fun _ st => (.error ⟨"Error", "boom"⟩, st) }
        (some "t") none).matchesOp .vnull Status.init []).2).path.length = 0 := by
  constructor
  · have hbal : (stringChecker.and numberChecker).PathBalanced :=
      path_stack_balance.2.2.1 stringChecker numberChecker
        (path_stack_balance.2.1 "string" isString stringCoerce "Not a string"
          (some TYPE_WEIGHT))
        (path_stack_balance.2.1 "number" isNumber jsNumber "Not a number"
          (some TYPE_WEIGHT))
    exact (path_stack_balance.2.2.2 _ hbal (.str "x") Status.init []).1
  · have hbal := path_stack_balance.1
      { matchesOp := fun _ st => (.error ⟨"Error", "boom"⟩, st)
        cast := fun _ st => (.error ⟨"Error", "boom"⟩, st)
        validate := fun _ st => (.error ⟨"Error", "boom"⟩, st) }
      (some "t") none ⟨fun v st => rfl, fun v st => rfl, fun v st => rfl⟩
    exact (path_stack_balance.2.2.2 _ hbal .vnull Status.init []).1

/-! ## Claim C8 — idempotence of the coercions on accepted values -/

/-- Running a static checker's wrapped `matches` always returns the
predicate's verdict (for some resulting status). -/
theorem static_matches_run (nm : String) (pred : Value → Bool) (coer : Value → Value)
    (msg : String) (w : Option Rat) (v : Value) (st : Status)
    (keys : List (Option String)) :
    ∃ st2, (staticCheck nm pred coer msg w).matchesOp v st keys = (.ok (pred v), st2) :=
  ⟨_, bindStatus_ok (some nm) w (fun x => x)
    (fun v st => ((.ok (pred v) : Except JsError Bool), st)) v st keys (pred v)
    ((st.push (some nm) keys).2) rfl⟩

/-- Running a static checker's wrapped `cast` always returns the coercion
of the value (for some resulting status). -/
theorem static_cast_run (nm : String) (pred : Value → Bool) (coer : Value → Value)
    (msg : String) (w : Option Rat) (v : Value) (st : Status)
    (keys : List (Option String)) :
    ∃ st2, (staticCheck nm pred coer msg w).cast v st keys = (.ok (coer v), st2) :=
  ⟨_, bindStatus_ok (some nm) w (fun _ => true)
    (fun v st => ((.ok (coer v) : Except JsError Value), st)) v st keys (coer v)
    ((st.push (some nm) keys).2) rfl⟩

/-- The conjunction of two static checkers matches exactly when the left
predicate holds of the value and the right predicate holds of the left
coercion of the value. -/
theorem static_and_matches_fst (nl : String) (pl : Value → Bool) (cl : Value → Value)
    (ml : String) (wl : Option Rat) (nr : String) (pr : Value → Bool)
    (cr : Value → Value) (mr : String) (wr : Option Rat) (v : Value) (st : Status)
    (keys : List (Option String)) :
    (((staticCheck nl pl cl ml wl).and (staticCheck nr pr cr mr wr)).matchesOp
        v st keys).1 = .ok (pl v && pr (cl v)) := by
  obtain ⟨X, hX⟩ := static_matches_run nl pl cl ml wl v ((st.push none keys).2) []
  cases hpl : pl v with
  | false =>
    rw [hpl] at hX
    have hraw : (andRaw (staticCheck nl pl cl ml wl)
        (staticCheck nr pr cr mr wr)).matchesOp v ((st.push none keys).2) =
        (.ok false, X) := by
      simp [andRaw, hX]
    have hfst := bindStatus_ok_fst none (some 0) (fun x => x) _ v st keys false X hraw
    simpa [Checker.and, asCheck] using hfst
  | true =>
    rw [hpl] at hX
    obtain ⟨Y, hY⟩ := static_cast_run nl pl cl ml wl v X []
    obtain ⟨Z, hZ⟩ := static_matches_run nr pr cr mr wr (cl v) Y
      [(staticCheck nl pl cl ml wl).name]
    have hraw : (andRaw (staticCheck nl pl cl ml wl)
        (staticCheck nr pr cr mr wr)).matchesOp v ((st.push none keys).2) =
        (.ok (pr (cl v)), Z) := by
      simp [andRaw, hX, hY, hZ]
    have hfst := bindStatus_ok_fst none (some 0) (fun x => x) _ v st keys
      (pr (cl v)) Z hraw
    simpa [Checker.and, asCheck] using hfst

/-- The conjunction of two static checkers casts by composing the two
coercions left to right. -/
theorem static_and_cast_fst (nl : String) (pl : Value → Bool) (cl : Value → Value)
    (ml : String) (wl : Option Rat) (nr : String) (pr : Value → Bool)
    (cr : Value → Value) (mr : String) (wr : Option Rat) (v : Value) (st : Status)
    (keys : List (Option String)) :
    (((staticCheck nl pl cl ml wl).and (staticCheck nr pr cr mr wr)).cast
        v st keys).1 = .ok (cr (cl v)) := by
  obtain ⟨Y, hY⟩ := static_cast_run nl pl cl ml wl v ((st.push none keys).2) []
  obtain ⟨Z, hZ⟩ := static_cast_run nr pr cr mr wr (cl v) Y
    [(staticCheck nl pl cl ml wl).name]
  have hraw : (andRaw (staticCheck nl pl cl ml wl)
      (staticCheck nr pr cr mr wr)).cast v ((st.push none keys).2) =
      (.ok (cr (cl v)), Z) := by
    simp [andRaw, hY, hZ]
  have hfst := bindStatus_ok_fst none (some 0) (fun _ => true) _ v st keys
    (cr (cl v)) Z hraw
  simpa [Checker.and, asCheck] using hfst

/-- An accepted value is a fixed point of the string coercion. -/
theorem string_coerce_fixed (v : Value) (h : isString v = true) :
    stringCoerce v = v := by
  cases v <;> simp_all [isString, stringCoerce, isUndefined, isNull, jsString]

/-- An accepted value is a fixed point of the number coercion. -/
theorem number_coerce_fixed (v : Value) (h : isNumber v = true) : jsNumber v = v := by
  cases v <;> simp_all [isNumber, jsNumber]

/-- An accepted value is a fixed point of the boolean coercion. -/
theorem boolean_coerce_fixed (v : Value) (h : isBoolean v = true) : jsBoolean v = v := by
  cases v <;> simp_all [isBoolean, jsBoolean, jsTruthy]

/-- An accepted value is a fixed point of the array coercion. -/
theorem array_coerce_fixed (v : Value) (h : isArray v = true) : castArray v = v := by
  cases v <;> simp_all [isArray, castArray]

/-- An accepted value is a fixed point of the object coercion. -/
theorem object_coerce_fixed (v : Value) (h : isObject v = true) : jsObjectFn v = v := by
  simp [jsObjectFn, h]

/-- An accepted value is a fixed point of the date coercion. -/
theorem date_coerce_fixed (v : Value) (h : isDate v = true) : dateCoerce v = v := by
  simp [dateCoerce, h]

/-- An accepted value is a fixed point of the json coercion. -/
theorem json_coerce_fixed (v : Value) (h : isJson v = true) : jsonCoerce v = v := by
  simp [jsonCoerce, h]

/-- An accepted value is a fixed point of the error coercion. -/
theorem error_coerce_fixed (v : Value) (h : isUndefined v = true) : errorCoerce v = v := by
  cases v <;> simp_all [isUndefined, errorCoerce]

/-- C8: on any value it accepts, each primitive static checker's coercion
is idempotent (applying it twice equals applying it once), and so is the
sequential composition performed by the AND combinator's cast: if the
conjunction of two static checkers (whose coercions fix the values their
predicates accept, as all eight above do) accepts `v`, then casting the
cast of `v` returns the cast of `v` unchanged. -/
theorem coerce_idempotent :
    (∀ v, isUndefined v = true → errorCoerce (errorCoerce v) = errorCoerce v)
    ∧ (∀ v, isObject v = true → jsObjectFn (jsObjectFn v) = jsObjectFn v)
    ∧ (∀ v, isArray v = true → castArray (castArray v) = castArray v)
    ∧ (∀ v, isBoolean v = true → jsBoolean (jsBoolean v) = jsBoolean v)
    ∧ (∀ v, isString v = true → stringCoerce (stringCoerce v) = stringCoerce v)
    ∧ (∀ v, isNumber v = true → jsNumber (jsNumber v) = jsNumber v)
    ∧ (∀ v, isDate v = true → dateCoerce (dateCoerce v) = dateCoerce v)
    ∧ (∀ v, isJson v = true → jsonCoerce (jsonCoerce v) = jsonCoerce v)
    ∧ (∀ (nl : String) (pl : Value → Bool) (cl : Value → Value) (ml : String)
        (wl : Option Rat) (nr : String) (pr : Value → Bool) (cr : Value → Value)
        (mr : String) (wr : Option Rat),
        (∀ u, pl u = true → cl u = u) → (∀ u, pr u = true → cr u = u) →
        ∀ v st keys,
          (((staticCheck nl pl cl ml wl).and
              (staticCheck nr pr cr mr wr)).matchesOp v st keys).1 = .ok true →
          ∀ u st1 keys1 st2 keys2,
            (((staticCheck nl pl cl ml wl).and
                (staticCheck nr pr cr mr wr)).cast v st1 keys1).1 = .ok u →
            (((staticCheck nl pl cl ml wl).and
                (staticCheck nr pr cr mr wr)).cast u st2 keys2).1 = .ok u) := by
  refine ⟨fun v h => rfl,
    fun v h => by rw [object_coerce_fixed v h]; exact object_coerce_fixed v h,
    fun v h => by rw [array_coerce_fixed v h]; exact array_coerce_fixed v h,
    fun v h => by rw [boolean_coerce_fixed v h]; exact boolean_coerce_fixed v h,
    fun v h => by rw [string_coerce_fixed v h]; exact string_coerce_fixed v h,
    fun v h => by rw [number_coerce_fixed v h]; exact number_coerce_fixed v h,
    fun v h => by rw [date_coerce_fixed v h]; exact date_coerce_fixed v h,
    fun v h => by rw [json_coerce_fixed v h]; exact json_coerce_fixed v h, ?_⟩
  intro nl pl cl ml wl nr pr cr mr wr hl hr v st keys hacc u st1 keys1 st2 keys2 hcast
  have hfst := static_and_matches_fst nl pl cl ml wl nr pr cr mr wr v st keys
  rw [hacc] at hfst
  have hand : (pl v && pr (cl v)) = true := by
    injection hfst with h
    exact h.symm
  simp only [Bool.and_eq_true] at hand
  obtain ⟨hpl, hpr⟩ := hand
  have hclv : cl v = v := hl v hpl
  have hcrv : cr (cl v) = cl v := hr (cl v) hpr
  have hval : cr (cl v) = v := hcrv.trans hclv
  have h1 := static_and_cast_fst nl pl cl ml wl nr pr cr mr wr v st1 keys1
  rw [hcast] at h1
  have hu : u = v := by
    injection h1 with h
    rw [h, hval]
  subst hu
  have h2 := static_and_cast_fst nl pl cl ml wl nr pr cr mr wr u st2 keys2
  rw [hval] at h2
  exact h2

/-- Witness for `coerce_idempotent`: the conjunction of two string
checkers, which accepts the string "x", maps its own cast of "x" to
itself. -/
theorem coerce_idempotent_witness :
    ((stringChecker.and stringChecker).cast (.str "x")
        (Status.mk [] [] 1 []) []).1 = .ok (.str "x") :=
  coerce_idempotent.2.2.2.2.2.2.2.2 "string" isString stringCoerce "Not a string"
    (some TYPE_WEIGHT) "string" isString stringCoerce "Not a string"
    (some TYPE_WEIGHT) string_coerce_fixed string_coerce_fixed
    (.str "x") Status.init [] rfl
    (.str "x") Status.init [] (Status.mk [] [] 1 []) [] rfl

/-! ## Claim C6 — quality is the signed sum of all invocation weights -/

/-- Full characterisation of running an interpreted checker tree: the
results are the specification-level `matchesRes`/`castVal`, and the
quality moves by exactly the signed sum of the per-invocation events of
the walk. -/
theorem ct_run_spec (t : CT) (v : Value) (st : Status) (keys : List (Option String)) :
    (((t.interp).matchesOp v st keys).1 = .ok (t.matchesRes v) ∧
      (((t.interp).matchesOp v st keys).2).quality =
        st.quality + signedSum (t.matchEvents v)) ∧
    (((t.interp).cast v st keys).1 = .ok (t.castVal v) ∧
      (((t.interp).cast v st keys).2).quality =
        st.quality + signedSum (t.castEvents v)) ∧
    (((t.interp).validate v st keys).1 = .ok (t.castVal v) ∧
      (((t.interp).validate v st keys).2).quality =
        st.quality + signedSum (t.castEvents v)) := by
  induction t generalizing v st keys with
  | leaf nm pred coer w =>
    refine ⟨⟨?_, ?_⟩, ⟨?_, ?_⟩, ⟨?_, ?_⟩⟩
    · exact bindStatus_ok_fst (some nm) w (fun x => x)
        (fun v st => ((.ok (pred v) : Except JsError Bool), st)) v st keys (pred v)
        ((st.push (some nm) keys).2) rfl
    · show ((bindStatus (some nm) w (fun x => x)
          (fun v st => ((.ok (pred v) : Except JsError Bool), st)) v st keys).2).quality = _
      rw [bindStatus_ok_quality (some nm) w (fun x => x)
        (fun v st => ((.ok (pred v) : Except JsError Bool), st)) v st keys (pred v)
        ((st.push (some nm) keys).2) rfl]
      cases hp : pred v
      · simp [CT.matchEvents, signedSum, hp]
        ring
      · simp [CT.matchEvents, signedSum, hp]
    · exact bindStatus_ok_fst (some nm) w (fun _ => true)
        (fun v st => ((.ok (coer v) : Except JsError Value), st)) v st keys (coer v)
        ((st.push (some nm) keys).2) rfl
    · show ((bindStatus (some nm) w (fun _ => true)
          (fun v st => ((.ok (coer v) : Except JsError Value), st)) v st keys).2).quality = _
      rw [bindStatus_ok_quality (some nm) w (fun _ => true)
        (fun v st => ((.ok (coer v) : Except JsError Value), st)) v st keys (coer v)
        ((st.push (some nm) keys).2) rfl]
      simp [CT.castEvents, signedSum]
    · exact bindStatus_ok_fst (some nm) w (fun _ => true)
        (fun v st => ((.ok (coer v) : Except JsError Value), st)) v st keys (coer v)
        ((st.push (some nm) keys).2) rfl
    · show ((bindStatus (some nm) w (fun _ => true)
          (fun v st => ((.ok (coer v) : Except JsError Value), st)) v st keys).2).quality = _
      rw [bindStatus_ok_quality (some nm) w (fun _ => true)
        (fun v st => ((.ok (coer v) : Except JsError Value), st)) v st keys (coer v)
        ((st.push (some nm) keys).2) rfl]
      simp [CT.castEvents, signedSum]
  | conj l r ihl ihr =>
    have matchesBlock :
        ((CT.interp (CT.conj l r)).matchesOp v st keys).1 =
          .ok (CT.matchesRes (CT.conj l r) v) ∧
        (((CT.interp (CT.conj l r)).matchesOp v st keys).2).quality =
          st.quality + signedSum (CT.matchEvents (CT.conj l r) v) := by
      cases hA : (CT.interp l).matchesOp v ((st.push none keys).2) [] with
      | mk e1 s1 =>
        have hA1 : e1 = .ok (CT.matchesRes l v) := by
          have h := (ihl v ((st.push none keys).2) ([] : List (Option String))).1.1
          rw [hA] at h
          exact h
        have hA2 : s1.quality = st.quality + signedSum (CT.matchEvents l v) := by
          have h := (ihl v ((st.push none keys).2) ([] : List (Option String))).1.2
          rw [hA] at h
          simpa using h
        subst hA1
        cases hm : CT.matchesRes l v with
        | false =>
          rw [hm] at hA
          have hraw : (andRaw (CT.interp l) (CT.interp r)).matchesOp v
              ((st.push none keys).2) = (.ok false, s1) := by
            simp [andRaw, hA]
          constructor
          · show (bindStatus none (some 0) (fun x => x)
                (andRaw (CT.interp l) (CT.interp r)).matchesOp v st keys).1 = _
            rw [bindStatus_ok_fst none (some 0) (fun x => x) _ v st keys false s1 hraw]
            simp [CT.matchesRes, hm]
          · have hq := bindStatus_ok_quality none (some 0) (fun x => x) _ v st keys
              false s1 hraw
            rw [hA2] at hq
            show ((bindStatus none (some 0) (fun x => x)
                (andRaw (CT.interp l) (CT.interp r)).matchesOp v st keys).2).quality = _
            rw [hq]
            simp [CT.matchEvents, hm, signedSum_append, signedSum]
        | true =>
          rw [hm] at hA
          cases hB : (CT.interp l).cast v s1 [] with
          | mk e2 s2 =>
            have hB1 : e2 = .ok (CT.castVal l v) := by
              have h := (ihl v s1 ([] : List (Option String))).2.1.1
              rw [hB] at h
              exact h
            have hB2 : s2.quality = s1.quality + signedSum (CT.castEvents l v) := by
              have h := (ihl v s1 ([] : List (Option String))).2.1.2
              rw [hB] at h
              simpa using h
            subst hB1
            cases hC : (CT.interp r).matchesOp (CT.castVal l v) s2
                [(CT.interp l).name] with
            | mk e3 s3 =>
              have hC1 : e3 = .ok (CT.matchesRes r (CT.castVal l v)) := by
                have h := (ihr (CT.castVal l v) s2 [(CT.interp l).name]).1.1
                rw [hC] at h
                exact h
              have hC2 : s3.quality =
                  s2.quality + signedSum (CT.matchEvents r (CT.castVal l v)) := by
                have h := (ihr (CT.castVal l v) s2 [(CT.interp l).name]).1.2
                rw [hC] at h
                simpa using h
              subst hC1
              have hraw : (andRaw (CT.interp l) (CT.interp r)).matchesOp v
                  ((st.push none keys).2) =
                  (.ok (CT.matchesRes r (CT.castVal l v)), s3) := by
                simp [andRaw, hA, hB, hC]
              constructor
              · show (bindStatus none (some 0) (fun x => x)
                    (andRaw (CT.interp l) (CT.interp r)).matchesOp v st keys).1 = _
                rw [bindStatus_ok_fst none (some 0) (fun x => x) _ v st keys _ s3 hraw]
                simp [CT.matchesRes, hm]
              · have hq := bindStatus_ok_quality none (some 0) (fun x => x) _ v st keys
                  _ s3 hraw
                rw [hC2, hB2, hA2] at hq
                show ((bindStatus none (some 0) (fun x => x)
                    (andRaw (CT.interp l) (CT.interp r)).matchesOp v st keys).2).quality = _
                rw [hq]
                simp [CT.matchEvents, hm, signedSum_append, signedSum]
                ring
    have castBlock :
        ((CT.interp (CT.conj l r)).cast v st keys).1 =
          .ok (CT.castVal (CT.conj l r) v) ∧
        (((CT.interp (CT.conj l r)).cast v st keys).2).quality =
          st.quality + signedSum (CT.castEvents (CT.conj l r) v) := by
      cases hA : (CT.interp l).cast v ((st.push none keys).2) [] with
      | mk e1 s1 =>
        have hA1 : e1 = .ok (CT.castVal l v) := by
          have h := (ihl v ((st.push none keys).2) ([] : List (Option String))).2.1.1
          rw [hA] at h
          exact h
        have hA2 : s1.quality = st.quality + signedSum (CT.castEvents l v) := by
          have h := (ihl v ((st.push none keys).2) ([] : List (Option String))).2.1.2
          rw [hA] at h
          simpa using h
        subst hA1
        cases hB : (CT.interp r).cast (CT.castVal l v) s1 [(CT.interp l).name] with
        | mk e2 s2 =>
          have hB1 : e2 = .ok (CT.castVal r (CT.castVal l v)) := by
            have h := (ihr (CT.castVal l v) s1 [(CT.interp l).name]).2.1.1
            rw [hB] at h
            exact h
          have hB2 : s2.quality =
              s1.quality + signedSum (CT.castEvents r (CT.castVal l v)) := by
            have h := (ihr (CT.castVal l v) s1 [(CT.interp l).name]).2.1.2
            rw [hB] at h
            simpa using h
          subst hB1
          have hraw : (andRaw (CT.interp l) (CT.interp r)).cast v
              ((st.push none keys).2) =
              (.ok (CT.castVal r (CT.castVal l v)), s2) := by
            simp [andRaw, hA, hB]
          constructor
          · show (bindStatus none (some 0) (fun _ => true)
                (andRaw (CT.interp l) (CT.interp r)).cast v st keys).1 = _
            rw [bindStatus_ok_fst none (some 0) (fun _ => true) _ v st keys _ s2 hraw]
            simp [CT.castVal]
          · have hq := bindStatus_ok_quality none (some 0) (fun _ => true) _ v st keys
              _ s2 hraw
            rw [hB2, hA2] at hq
            show ((bindStatus none (some 0) (fun _ => true)
                (andRaw (CT.interp l) (CT.interp r)).cast v st keys).2).quality = _
            rw [hq]
            simp [CT.castEvents, signedSum_append, signedSum]
            ring
    have validateBlock :
        ((CT.interp (CT.conj l r)).validate v st keys).1 =
          .ok (CT.castVal (CT.conj l r) v) ∧
        (((CT.interp (CT.conj l r)).validate v st keys).2).quality =
          st.quality + signedSum (CT.castEvents (CT.conj l r) v) := by
      cases hA : (CT.interp l).validate v ((st.push none keys).2) [] with
      | mk e1 s1 =>
        have hA1 : e1 = .ok (CT.castVal l v) := by
          have h := (ihl v ((st.push none keys).2) ([] : List (Option String))).2.2.1
          rw [hA] at h
          exact h
        have hA2 : s1.quality = st.quality + signedSum (CT.castEvents l v) := by
          have h := (ihl v ((st.push none keys).2) ([] : List (Option String))).2.2.2
          rw [hA] at h
          simpa using h
        subst hA1
        cases hB : (CT.interp r).validate (CT.castVal l v) s1 [(CT.interp l).name] with
        | mk e2 s2 =>
          have hB1 : e2 = .ok (CT.castVal r (CT.castVal l v)) := by
            have h := (ihr (CT.castVal l v) s1 [(CT.interp l).name]).2.2.1
            rw [hB] at h
            exact h
          have hB2 : s2.quality =
              s1.quality + signedSum (CT.castEvents r (CT.castVal l v)) := by
            have h := (ihr (CT.castVal l v) s1 [(CT.interp l).name]).2.2.2
            rw [hB] at h
            simpa using h
          subst hB1
          have hraw : (andRaw (CT.interp l) (CT.interp r)).validate v
              ((st.push none keys).2) =
              (.ok (CT.castVal r (CT.castVal l v)), s2) := by
            simp [andRaw, hA, hB]
          constructor
          · show (bindStatus none (some 0) (fun _ => true)
                (andRaw (CT.interp l) (CT.interp r)).validate v st keys).1 = _
            rw [bindStatus_ok_fst none (some 0) (fun _ => true) _ v st keys _ s2 hraw]
            simp [CT.castVal]
          · have hq := bindStatus_ok_quality none (some 0) (fun _ => true) _ v st keys
              _ s2 hraw
            rw [hB2, hA2] at hq
            show ((bindStatus none (some 0) (fun _ => true)
                (andRaw (CT.interp l) (CT.interp r)).validate v st keys).2).quality = _
            rw [hq]
            simp [CT.castEvents, signedSum_append, signedSum]
            ring
    exact ⟨matchesBlock, castBlock, validateBlock⟩

/-- C6: every checker invocation — not just the root — adjusts the quality
by exactly +weight on a recorded success and by exactly -weight on a
recorded failure (first conjunct: the hydrating wrapper, for any raw
operation and any explicit weight), so over a whole walk of a composed
checker the final quality is the initial quality plus the signed sum of
the weights of all succeeding invocations minus those of all failing ones
(second conjunct: over every tree of static checkers composed with AND,
for the matches, cast and validate walks; an invocation aborted by a
throw without a message records no outcome and is not an event). -/
theorem quality_signed_sum :
    (∀ (raw : RawChecker) (nm : Option String) (wq : Rat) (v : Value) (st : Status)
        (keys : List (Option String)) (r : Bool) (st2 : Status),
        raw.matchesOp v ((st.push nm keys).2) = (.ok r, st2) →
        (((asCheck raw nm (some wq)).matchesOp v st keys).2).quality =
          if r then st2.quality + wq else st2.quality - wq)
    ∧ (∀ (t : CT) (v : Value) (st : Status) (keys : List (Option String)),
        (((t.interp).matchesOp v st keys).2).quality =
          st.quality + signedSum (t.matchEvents v) ∧
        (((t.interp).cast v st keys).2).quality =
          st.quality + signedSum (t.castEvents v) ∧
        (((t.interp).validate v st keys).2).quality =
          st.quality + signedSum (t.castEvents v)) := by
  constructor
  · intro raw nm wq v st keys r st2 h
    have hq := bindStatus_ok_quality nm (some wq) (fun x => x) raw.matchesOp
      v st keys r st2 h
    simpa using hq
  · intro t v st keys
    exact ⟨(ct_run_spec t v st keys).1.2, (ct_run_spec t v st keys).2.1.2,
      (ct_run_spec t v st keys).2.2.2⟩

/-- Witness for `quality_signed_sum`: a weight-2 checker failing its match
lowers the quality from 0 to -2. -/
theorem quality_signed_sum_witness :
    ((asCheck
        { matchesOp := fun v st => (.ok (isString v), st)
          cast := fun v st => (.ok v, st)
          validate := fun v st => (.ok v, st) }
        (some "s") (some 2)).matchesOp (.num 1) Status.init []).2.quality = -2 := by
  have h := quality_signed_sum.1
    { matchesOp := fun v st => (.ok (isString v), st)
      cast := fun v st => (.ok v, st)
      validate := fun v st => (.ok v, st) }
    (some "s") 2 (.num 1) Status.init [] false (Status.mk ["s"] [] 0 []) rfl
  simpa using h

end Yavl
